import Mathlib

/-!
# Verification of protoc-gen-validator's rule-to-code compiler

A shallow embedding of `src/validator/generator.go`: the generator walks a
message's fields, translates each field's validation rules into Go checking
code, and returns a generation-time error for rule/kind combinations it does
not support.  Emitted Go code is modelled as an AST of check items paired with
an interpreter giving the checks' runtime semantics; generation-time failure is
an `Except String` result (on error the plugin run aborts and no output is
written, so the partially emitted buffer is not observable).

The parsed constraint model (package `parser`, not under `src/`) is modelled
from the spec, section 3: a Rule is a rule key paired with a single value, a
value list, or an inner rule list; a ValidationValue is a tagged variant over
integer, floating, boolean, binary, field-reference and function-call values.
-/

/-- The closed enumeration of rule kinds (spec section 3; `parser` constants
used throughout generator.go). -/
inductive RuleKey where
  | notNil | constKey | lessThan | lessEqual | greatThan | greatEqual
  | inKey | notInKey | minSize | maxSize
  | prefixRule | suffixRule | containsRule | notContainsRule | patternRule
  | definedOnly | skip | assertKey | noSparse | mapKey | mapValue | elem
deriving DecidableEq, Repr

/-- `parser.KeyString` as used in generation-time error messages. -/
def keyString : RuleKey → String
  | .notNil => "not_nil"
  | .constKey => "const"
  | .lessThan => "lt"
  | .lessEqual => "le"
  | .greatThan => "gt"
  | .greatEqual => "ge"
  | .inKey => "in"
  | .notInKey => "not_in"
  | .minSize => "min_size"
  | .maxSize => "max_size"
  | .prefixRule => "prefix"
  | .suffixRule => "suffix"
  | .containsRule => "contains"
  | .notContainsRule => "not_contains"
  | .patternRule => "pattern"
  | .definedOnly => "defined_only"
  | .skip => "skip"
  | .assertKey => "assert"
  | .noSparse => "no_sparse"
  | .mapKey => "map_key"
  | .mapValue => "map_value"
  | .elem => "elem"

/-- The tag of a ValidationValue (spec section 3; `parser.ValueType`). -/
inductive ValueType where
  | intValue | doubleValue | boolValue | binaryValue
  | fieldReferenceValue | functionValue
deriving DecidableEq, Repr

/-- A function call operand (spec section 3; `parser.ToolFunction`).  Modelled
at the name level: only the name decides resolution against the built-in set
and the external registry (generator.go, generateFunction); the arguments do
not influence any claim settled here and are elided. -/
structure ToolFunction where
  name : String
deriving DecidableEq, Repr

/-- The payload of a ValidationValue; exactly the variant named by the tag is
meaningful (spec section 3).  Go float64 literals are modelled as rationals. -/
structure TypedValue where
  int : Int := 0
  double : Rat := 0
  bool : Bool := false
  binary : String := ""
  fieldReference : String := ""
  function : ToolFunction := { name := "" }
deriving DecidableEq, Repr

/-- `GetFieldReferenceName(prefix)`: a field reference renders as a read of
another field of the same message. -/
def TypedValue.getFieldReferenceName (tv : TypedValue) (pre : String) : String :=
  pre ++ tv.fieldReference

/-- A single constraint operand (spec section 3; `parser.ValidationValue`). -/
structure ValidationValue where
  valueType : ValueType := .intValue
  typedValue : TypedValue := {}
deriving DecidableEq, Repr

/-- One declarative constraint (spec section 3; `parser.Rule`): a rule kind
with a single value (`specified`), a value list (`range_`, used by in/not_in),
or an inner rule list (used by element/map_key/map_value). -/
inductive Rule where
  | mk (key : RuleKey) (specified : ValidationValue) (range_ : List ValidationValue)
       (inner : List Rule)

def Rule.key : Rule → RuleKey
  | .mk k _ _ _ => k

def Rule.specified : Rule → ValidationValue
  | .mk _ s _ _ => s

def Rule.range_ : Rule → List ValidationValue
  | .mk _ _ r _ => r

def Rule.inner : Rule → List Rule
  | .mk _ _ _ i => i

/-- Field kinds (protoreflect.Kind, restricted to what generator.go switches
on; the integer family is collapsed kind-by-kind like the source's case
lists). -/
inductive FieldKind where
  | boolKind
  | int32Kind | sint32Kind | uint32Kind | int64Kind | sint64Kind | uint64Kind
  | sfixed32Kind | fixed32Kind | sfixed64Kind | fixed64Kind
  | floatKind | doubleKind
  | stringKind | bytesKind
  | enumKind | messageKind
deriving DecidableEq, Repr

/-- `Kind().String()` for the kinds above. -/
def FieldKind.str : FieldKind → String
  | .boolKind => "bool"
  | .int32Kind => "int32"
  | .sint32Kind => "sint32"
  | .uint32Kind => "uint32"
  | .int64Kind => "int64"
  | .sint64Kind => "sint64"
  | .uint64Kind => "uint64"
  | .sfixed32Kind => "sfixed32"
  | .fixed32Kind => "fixed32"
  | .sfixed64Kind => "sfixed64"
  | .fixed64Kind => "fixed64"
  | .floatKind => "float"
  | .doubleKind => "double"
  | .stringKind => "string"
  | .bytesKind => "bytes"
  | .enumKind => "enum"
  | .messageKind => "message"

/-- Membership of the integer kind family (the case list of
generateNumericValidation and generateSlice). -/
def FieldKind.isIntFamily : FieldKind → Bool
  | .int32Kind | .sint32Kind | .uint32Kind | .int64Kind | .sint64Kind
  | .uint64Kind | .sfixed32Kind | .fixed32Kind | .sfixed64Kind
  | .fixed64Kind => true
  | _ => false

/-- Modelled from the spec: `util.IsBaseType` (package `util`, not under
`src/`) holds of scalar base kinds — bool, the integer and floating families,
string and bytes (spec sections 2 and 3) — and not of enum or message kinds. -/
def IsBaseType : FieldKind → Bool
  | .boolKind | .floatKind | .doubleKind | .stringKind | .bytesKind => true
  | .enumKind | .messageKind => false
  | k => k.isIntFamily

/- ## Descriptors (the schema/descriptor provider's object graph) -/
/-- An enum value descriptor: its schema name and its generated Go symbol. -/
structure EnumValueDesc where
  name : String
  goName : String
deriving DecidableEq, Repr

/-- An enum type descriptor. -/
structure EnumDesc where
  name : String
  values : List EnumValueDesc
deriving DecidableEq, Repr

/-- One schema file: its package, its Go package name and its enum types
(what getEnumValue and the map key/value lookups consult). -/
structure FileDesc where
  pkg : String
  goPackageName : String
  enums : List EnumDesc
deriving DecidableEq, Repr

/- ## String helpers (Go stdlib calls used by generator.go, modelled on
character lists so that every definition evaluates in the kernel) -/
/-- `strings.Split(s, sep)` for a one-character separator. -/
def splitCharAux (sep : Char) : List Char → List Char → List String
  | [], acc => [String.mk acc.reverse]
  | c :: rest, acc =>
    if c = sep then String.mk acc.reverse :: splitCharAux sep rest []
    else splitCharAux sep rest (c :: acc)

/-- `strings.Split` by a single character. -/
def splitChar (sep : Char) (s : String) : List String :=
  splitCharAux sep s.data []

/-- Whether `p` occurs as a contiguous run inside `l` (the substring scan
behind "the error message names X"). -/
def infixScan (p : List Char) : List Char → Bool
  | [] => p.isEmpty
  | c :: rest => p.isPrefixOf (c :: rest) || infixScan p rest

/-- Substring test on strings. -/
def strContains (s pat : String) : Bool :=
  infixScan pat.data s.data

/- ## Enum constant resolution (generator.go lines 240-287) -/
/-- The inner two loops of getCurPackageEnumValue/getDepPackageEnumValue:
scan the values of one enum type for a value of the given name. -/
def scanEnumValues (vName : String) : List EnumValueDesc → Option String
  | [] => none
  | v :: rest => if v.name = vName then some v.goName else scanEnumValues vName rest

/-- Scan a file's enum types for `tyName`, then its values for `vName`;
a name-matching enum type without the value does not stop the scan (the Go
loops simply continue). -/
def scanEnums (tyName vName : String) : List EnumDesc → Option String
  | [] => none
  | e :: rest =>
    if e.name = tyName then
      match scanEnumValues vName e.values with
      | some g => some g
      | none => scanEnums tyName vName rest
    else scanEnums tyName vName rest

/-- getCurPackageEnumValue: search every file of the current package for
enum type `d0` with value `d1`; on failure the error names `d0.d1` and the
package searched. -/
def getCurPackageEnumValue (files : List FileDesc) (curPackage : String)
    (d0 d1 : String) : Except String String :=
  match files.foldr
      (fun f acc =>
        if f.pkg = curPackage then
          match scanEnums d0 d1 f.enums with
          | some g => some g
          | none => acc
        else acc) none with
  | some g => .ok g
  | none =>
    .error ("can not find enum value \x27" ++ d0 ++ "." ++ d1 ++
      "\x27 in package \x27" ++ curPackage ++ "\x27")

/-- getDepPackageEnumValue: search the files of package `d0` for enum type
`d1` with value `d2`; the rendered symbol is qualified with the file's Go
package name. -/
def getDepPackageEnumValue (files : List FileDesc) (d0 d1 d2 : String) :
    Except String String :=
  match files.foldr
      (fun f acc =>
        if f.pkg = d0 then
          match scanEnums d1 d2 f.enums with
          | some g => some (f.goPackageName ++ "." ++ g)
          | none => acc
        else acc) none with
  | some g => .ok g
  | none =>
    .error ("can not find enum value \x27" ++ d1 ++ "." ++ d2 ++
      "\x27 in package \x27" ++ d0 ++ "\x27")

/-- getEnumValue (generator.go lines 240-251): split the rule's operand on
dots; two segments resolve in the current package, three in the package named
by the first segment, anything else is a generation-time format error. -/
def getEnumValue (files : List FileDesc) (curPackage : String)
    (identifier : String) : Except String String :=
  match splitChar '.' identifier with
  | [d0, d1] => getCurPackageEnumValue files curPackage d0 d1
  | [d0, d1, d2] => getDepPackageEnumValue files d0 d1 d2
  | _ => .error ("wrong format for enum rule: " ++ identifier)

-- quick sanity examples (kernel-computable)

/- ## Generator context -/
/-- What the generator consults besides the field at hand: every schema file
of the run (`g.Files`) and the names registered in the external function
registry (`g.config`). -/
structure GCtx where
  files : List FileDesc := []
  funcs : List String := []

/-- The built-in function names of generateFunction (lines 882-950). -/
def builtinFuncs : List String :=
  ["len", "sprintf", "equal", "mod", "add", "now_unix_nano"]

/-- generateFunction, at the name level: a built-in or registered name
compiles (its computed value at validation time is modelled by an
environment), an unknown name is a generation-time error (line 931). -/
def generateFunction (g : GCtx) (f : ToolFunction) : Except String Unit :=
  if builtinFuncs.contains f.name || g.funcs.contains f.name then .ok ()
  else .error ("unknown function: " ++ f.name)

/- ## generateSlice (lines 393-456) -/
/-- One element of the generated slice literal: an integer, floating or
binary literal, or a read of a referenced field. -/
inductive SliceElem where
  | sInt (n : Int)
  | sDouble (q : Rat)
  | sStr (s : String)
  | sRef (ref : String)
deriving DecidableEq, Repr

/-- generateSlice: an empty value list is an error; a non-base field type is
an error; otherwise the element list is rendered by the field's kind, with
the bool kind caught by the final default case. -/
def generateSlice (kind : FieldKind) (vals : List ValidationValue) :
    Except String (List SliceElem) :=
  if vals.isEmpty then .error "empty validation values"
  else if !(IsBaseType kind) then
    .error ("type " ++ kind.str ++ " not supported in generate slice")
  else if kind.isIntFamily then
    .ok (vals.map fun v =>
      if v.valueType = .fieldReferenceValue then
        .sRef (v.typedValue.getFieldReferenceName "m.")
      else .sInt v.typedValue.int)
  else if kind = .floatKind || kind = .doubleKind then
    .ok (vals.map fun v =>
      if v.valueType = .fieldReferenceValue then
        .sRef (v.typedValue.getFieldReferenceName "m.")
      else .sDouble v.typedValue.double)
  else if kind = .stringKind || kind = .bytesKind then
    .ok (vals.map fun v =>
      if v.valueType = .fieldReferenceValue then
        .sRef (v.typedValue.getFieldReferenceName "m.")
      else .sStr v.typedValue.binary)
  else .error ("type " ++ kind.str ++ " not supported in generate slice")

/- ## Numeric validation (generateNumericValidation, lines 307-391) -/
/-- The materialized source operand of one numeric rule. -/
inductive NumSrc where
  | lit (n : Int)
  | litD (q : Rat)
  | fieldRef (ref : String)
  | funcSrc (f : ToolFunction)
deriving DecidableEq, Repr

/-- A numeric rule's operand is a single source or a generated slice. -/
inductive NumOperand where
  | one (s : NumSrc)
  | many (elems : List SliceElem)
deriving DecidableEq, Repr

/-- One emitted numeric check: the target accessor, the field name the
runtime error reports, the rule kind and the source operand. -/
structure NumCheck where
  getName : String
  rawName : String
  key : RuleKey
  src : NumOperand
deriving DecidableEq, Repr

/-- The body of generateNumericValidation's rule loop: construct the source
(or fail on an unsupported operand type, an unresolvable function or a bad
slice), then record the check; not_nil emits nothing. -/
def generateNumericRule (g : GCtx) (getName rawName : String)
    (kind : FieldKind) (r : Rule) : Except String (List NumCheck) :=
  match r.key with
  | .constKey | .lessThan | .lessEqual | .greatThan | .greatEqual =>
    (match r.specified.valueType with
     | .intValue =>
       .ok [⟨getName, rawName, r.key, .one (.lit r.specified.typedValue.int)⟩]
     | .doubleValue =>
       .ok [⟨getName, rawName, r.key, .one (.litD r.specified.typedValue.double)⟩]
     | .fieldReferenceValue =>
       .ok [⟨getName, rawName, r.key,
         .one (.fieldRef (r.specified.typedValue.getFieldReferenceName "m."))⟩]
     | .functionValue =>
       (generateFunction g r.specified.typedValue.function).map fun _ =>
         [⟨getName, rawName, r.key, .one (.funcSrc r.specified.typedValue.function)⟩]
     | _ =>
       .error ("unsupported value type for " ++ keyString r.key ++
         " in numeric validation"))
  | .inKey | .notInKey =>
    (generateSlice kind r.range_).map fun elems =>
      [⟨getName, rawName, r.key, .many elems⟩]
  | .notNil => .ok []
  | _ => .error "unknown numeric annotation"

/-- generateNumericValidation: the rules of one field, in declaration order;
the first rule that fails to generate aborts generation. -/
def generateNumericRules (g : GCtx) (getName rawName : String)
    (kind : FieldKind) : List Rule → Except String (List NumCheck)
  | [] => .ok []
  | r :: rs =>
    match generateNumericRule g getName rawName kind r with
    | .error e => .error e
    | .ok c =>
      match generateNumericRules g getName rawName kind rs with
      | .error e => .error e
      | .ok cs => .ok (c ++ cs)

/- ## Runtime semantics of the emitted numeric checks -/
/-- A runtime validation failure: the generated `fmt.Errorf` messages are
distinct per rule kind and name the offending field, modelled as this pair. -/
structure VErr where
  fieldName : String
  key : RuleKey
deriving DecidableEq, Repr

/-- The emitted `in` loop (lines 367-374): scan the slice, set `exist` and
break on the first element equal to the target. -/
def existScan {α : Type} [DecidableEq α] (target : α) : List α → Bool
  | [] => false
  | s :: rest => if target = s then true else existScan target rest

/-- The `in` check fails when the scan found no equal element (line 375). -/
def inRuleFails {α : Type} [DecidableEq α] (target : α) (srcs : List α) : Bool :=
  !(existScan target srcs)

/-- The emitted `not_in` loop (lines 378-383): return the failure on the
first element equal to the target. -/
def notInRuleFails {α : Type} [DecidableEq α] (target : α) : List α → Bool
  | [] => false
  | s :: rest => if target = s then true else notInRuleFails target rest

/-- Evaluate a numeric source at validation time.  A floating literal is cast
to the field's integer type; Go rejects non-integral constant conversions at
compile time, and on integral values the floor is exact. -/
def evalNumSrc (envI : String → Int) (envF : ToolFunction → Int) : NumSrc → Int
  | .lit n => n
  | .litD q => q.floor
  | .fieldRef ref => envI ref
  | .funcSrc f => envF f

/-- Evaluate a slice element as the field's integer type. -/
def evalSliceElemInt (envI : String → Int) : SliceElem → Int
  | .sInt n => n
  | .sDouble q => q.floor
  | .sRef ref => envI ref
  | .sStr _ => 0

/-- Whether one emitted numeric check fails on the target value
(the comparison operators of lines 345-388).  Operand shapes generation
never produces pass vacuously. -/
def checkNumFails (envI : String → Int) (envF : ToolFunction → Int)
    (target : Int) (c : NumCheck) : Bool :=
  match c.key, c.src with
  | .constKey, .one s => decide (target ≠ evalNumSrc envI envF s)
  | .lessThan, .one s => decide (target ≥ evalNumSrc envI envF s)
  | .lessEqual, .one s => decide (target > evalNumSrc envI envF s)
  | .greatThan, .one s => decide (target ≤ evalNumSrc envI envF s)
  | .greatEqual, .one s => decide (target < evalNumSrc envI envF s)
  | .inKey, .many xs => inRuleFails target (xs.map (evalSliceElemInt envI))
  | .notInKey, .many xs => notInRuleFails target (xs.map (evalSliceElemInt envI))
  | _, _ => false

/-- The generated procedure runs its checks in emission order and returns the
first failing check's error; `envI` is the message instance (field accessors
and temporaries), `envF` the validation-time value of computed operands. -/
def runNumChecks (envI : String → Int) (envF : ToolFunction → Int) :
    List NumCheck → Option VErr
  | [] => none
  | c :: cs =>
    if checkNumFails envI envF (envI c.getName) c then some ⟨c.rawName, c.key⟩
    else runNumChecks envI envF cs

/- ## The validate procedure of a message with numeric fields
(generateValidate, lines 118-149, specialized to numeric field contexts) -/
/-- One field context of the enclosing message: the external context builder
(outside `src/`) supplies one context per field, in field declaration order,
with target accessor `m.<name>` and the parsed rules in declaration order
(spec sections 3 and 6). -/
structure NumField where
  name : String
  kind : FieldKind := .int64Kind
  rules : List Rule

/-- generateValidate's loop: each field contributes its checks in order; the
first generation error aborts. -/
def generateValidateNum (g : GCtx) : List NumField → Except String (List NumCheck)
  | [] => .ok []
  | f :: fs =>
    match generateNumericRules g ("m." ++ f.name) f.name f.kind f.rules with
    | .error e => .error e
    | .ok cs =>
      match generateValidateNum g fs with
      | .error e => .error e
      | .ok rest => .ok (cs ++ rest)

/- ## Rule constructors used by concrete instances -/
def mkIntVal (n : Int) : ValidationValue :=
  { valueType := .intValue, typedValue := { int := n } }

def mkIntRule (k : RuleKey) (n : Int) : Rule :=
  .mk k (mkIntVal n) [] []

def mkBinVal (s : String) : ValidationValue :=
  { valueType := .binaryValue, typedValue := { binary := s } }

def mkBinRule (k : RuleKey) (s : String) : Rule :=
  .mk k (mkBinVal s) [] []

def mkRangeRule (k : RuleKey) (vals : List ValidationValue) : Rule :=
  .mk k {} vals []

def mkNotNilRule (b : Bool) : Rule :=
  .mk .notNil { valueType := .boolValue, typedValue := { bool := b } } [] []

-- sanity: a ge rule generates one check, and the check fails below the bound

def envI0 : String → Int := fun s =>
  if s = "m.a" then 5 else if s = "m.b" then 20 else if s = "m.c" then 999 else 0

def envF0 : ToolFunction → Int := fun _ => 0

/- ## Binary (string/bytes) validation (generateBinaryValidation, lines 493-630) -/
/-- The source operand of one binary rule.  `sliceSrc none` records that the
slice builder failed and its error was discarded (line 533): no slice is
declared, yet the membership loop is still emitted. -/
inductive BinSrc where
  | lit (s : String)
  | intLit (n : Int)
  | fieldRef (ref : String)
  | funcSrc (f : ToolFunction)
  | sliceSrc (elems : Option (List SliceElem))
deriving DecidableEq, Repr

/-- One emitted binary check; `isString` selects the text operators over the
`bytes.*` ones exactly as the source compares `Kind().String()` with
"string". -/
structure BinCheck where
  getName : String
  rawName : String
  isString : Bool
  key : RuleKey
  src : BinSrc
deriving DecidableEq, Repr

/-- The source switch of the const/prefix/suffix/contains/not_contains/pattern
cases (lines 500-517): a field reference, a compiled function, or “default” —
the operand's binary payload rendered as a literal. -/
def binStrOperand (g : GCtx) (v : ValidationValue) : Except String BinSrc :=
  match v.valueType with
  | .fieldReferenceValue =>
    .ok (BinSrc.fieldRef (v.typedValue.getFieldReferenceName "m."))
  | .functionValue =>
    (generateFunction g v.typedValue.function).map fun _ =>
      BinSrc.funcSrc v.typedValue.function
  | _ => .ok (BinSrc.lit v.typedValue.binary)

/-- The source switch of the min_size/max_size cases (lines 518-530).  The
switch has no default case: any other operand type leaves the Go `source`
variable untouched, so the previous source `src0` is reused. -/
def binSizeOperand (g : GCtx) (src0 : BinSrc) (v : ValidationValue) :
    Except String BinSrc :=
  match v.valueType with
  | .fieldReferenceValue =>
    .ok (BinSrc.fieldRef (v.typedValue.getFieldReferenceName "m."))
  | .intValue => .ok (BinSrc.intLit v.typedValue.int)
  | .functionValue =>
    (generateFunction g v.typedValue.function).map fun _ =>
      BinSrc.funcSrc v.typedValue.function
  | _ => .ok src0

/-- The body of generateBinaryValidation's rule loop.  `src0` is the current
value of the Go `source` variable, threaded through the loop. -/
def generateBinaryRule (g : GCtx) (getName rawName : String) (kind : FieldKind)
    (src0 : BinSrc) (r : Rule) : Except String (List BinCheck × BinSrc) :=
  let isStr := kind.str == "string"
  match r.key with
  | .constKey | .prefixRule | .suffixRule | .containsRule
  | .notContainsRule | .patternRule =>
    (binStrOperand g r.specified).map fun src =>
      ([⟨getName, rawName, isStr, r.key, src⟩], src)
  | .minSize | .maxSize =>
    (binSizeOperand g src0 r.specified).map fun src =>
      ([⟨getName, rawName, isStr, r.key, src⟩], src)
  | .inKey | .notInKey =>
    .ok ([⟨getName, rawName, isStr, r.key,
      BinSrc.sliceSrc (generateSlice kind r.range_).toOption⟩],
      BinSrc.sliceSrc (generateSlice kind r.range_).toOption)
  | .notNil => .ok ([], src0)
  | _ => .error "unknown binary annotation"

/-- generateBinaryValidation's rule loop, threading the `source` variable. -/
def generateBinaryRules (g : GCtx) (getName rawName : String) (kind : FieldKind)
    (src0 : BinSrc) : List Rule → Except String (List BinCheck)
  | [] => .ok []
  | r :: rs =>
    match generateBinaryRule g getName rawName kind src0 r with
    | .error e => .error e
    | .ok (cs, src1) =>
      match generateBinaryRules g getName rawName kind src1 rs with
      | .error e => .error e
      | .ok rest => .ok (cs ++ rest)

/-- generateBinaryValidation: `var source string` starts out empty. -/
def generateBinaryValidation (g : GCtx) (getName rawName : String)
    (kind : FieldKind) (rules : List Rule) : Except String (List BinCheck) :=
  generateBinaryRules g getName rawName kind (.lit "") rules

/- ## Runtime semantics of the emitted binary checks.
Binary values are modelled as lists of their underlying units. -/
/-- The runtime environments of one generated binary check: binary-valued and
integer-valued reads, computed operands, and the external regular-expression
matcher (`regexp.Match(source, target)`). -/
structure BinEnv where
  envB : String → List Char
  envI : String → Int
  envFB : ToolFunction → List Char
  envFI : ToolFunction → Int
  matchR : List Char → List Char → Bool

/-- A binary source read as a binary value. -/
def evalBinStr (e : BinEnv) : BinSrc → List Char
  | .lit s => s.data
  | .fieldRef ref => e.envB ref
  | .funcSrc f => e.envFB f
  | .intLit _ => []
  | .sliceSrc _ => []

/-- A binary source read as an integer bound (`int(source)`). -/
def evalBinInt (e : BinEnv) : BinSrc → Int
  | .intLit n => n
  | .fieldRef ref => e.envI ref
  | .funcSrc f => e.envFI f
  | _ => 0

/-- A slice element read as a binary value. -/
def evalSliceElemStr (e : BinEnv) : SliceElem → List Char
  | .sStr s => s.data
  | .sRef ref => e.envB ref
  | _ => []

/-- Whether one emitted binary check fails on the target value (the predicates
of lines 540-627; `len` is the length in underlying units, sizes inclusive).
A membership check whose slice declaration was dropped (see `BinSrc.sliceSrc`)
leaves Go code that does not compile; it is modelled as vacuously passing. -/
def checkBinFails (e : BinEnv) (target : List Char) (c : BinCheck) : Bool :=
  match c.key with
  | .minSize => decide ((target.length : Int) < evalBinInt e c.src)
  | .maxSize => decide ((target.length : Int) > evalBinInt e c.src)
  | .constKey => decide (target ≠ evalBinStr e c.src)
  | .prefixRule => !((evalBinStr e c.src).isPrefixOf target)
  | .suffixRule => !((evalBinStr e c.src).isSuffixOf target)
  | .containsRule => !(infixScan (evalBinStr e c.src) target)
  | .notContainsRule => infixScan (evalBinStr e c.src) target
  | .patternRule => !(e.matchR (evalBinStr e c.src) target)
  | .inKey =>
    match c.src with
    | .sliceSrc (some xs) => inRuleFails target (xs.map (evalSliceElemStr e))
    | _ => false
  | .notInKey =>
    match c.src with
    | .sliceSrc (some xs) => notInRuleFails target (xs.map (evalSliceElemStr e))
    | _ => false
  | _ => false

/-- The emitted binary checks run in order; the first failure returns. -/
def runBinChecks (e : BinEnv) (target : List Char) : List BinCheck → Option VErr
  | [] => none
  | c :: cs =>
    if checkBinFails e target c then some ⟨c.rawName, c.key⟩
    else runBinChecks e target cs

/- ## Bool validation (generateBoolValidation, lines 458-491), modelled at
the level of the emitted Go lines.  The operand switch of the const case has
no default branch, so an unsupported operand type leaves the Go `source`
variable holding its previous value (initially the empty string) and the
comparison is emitted anyway. -/
/-- `strconv.FormatBool`. -/
def formatBool (b : Bool) : String :=
  if b then "true" else "false"

/-- generateBoolValidation's rule loop, threading the `source` variable. -/
def generateBoolRules (getName rawName : String) (src0 : String) :
    List Rule → Except String (List String)
  | [] => .ok []
  | r :: rs =>
    match r.key with
    | .constKey =>
      let source :=
        match r.specified.valueType with
        | .boolValue => formatBool r.specified.typedValue.bool
        | .fieldReferenceValue => r.specified.typedValue.getFieldReferenceName "m."
        | _ => src0
      let lines :=
        ["if " ++ getName ++ " != " ++ source ++ " \x7b",
         "return fmt.Errorf(\"field " ++ rawName ++
           " const rule failed, current value: %v\", " ++ getName ++ ")",
         "\x7d"]
      (match generateBoolRules getName rawName source rs with
       | .error e => .error e
       | .ok rest => .ok (lines ++ rest))
    | .notNil =>
      generateBoolRules getName rawName src0 rs
    | _ => .error "unknown bool annotation"

/-- generateBoolValidation: `var source string` starts out empty. -/
def generateBoolValidation (getName rawName : String) (rules : List Rule) :
    Except String (List String) :=
  generateBoolRules getName rawName "" rules

/-- The schema files of the concrete C4 instances: one file in package
`mypkg` with enum `Color` holding the single value `RED`. -/
def filesEx : List FileDesc :=
  [⟨"mypkg", "mypkg", [⟨"Color", [⟨"RED", "Color_RED"⟩]⟩]⟩]

/- ## C6: the element loop of generateListValidation (lines 687-709) -/
/-- The loop emitted for an `element` rule: iterate indices `0..len-1` in
order (`for i := 0; i < len; i++`), bind the element and run its compiled
inner validation — abstracted as the element checker `R`; the first failing
element returns its error from the whole procedure. -/
def runElemLoop {α : Type} (R : α → Option VErr) : List α → Option VErr
  | [] => none
  | x :: xs =>
    match R x with
    | some e => some e
    | none => runElemLoop R xs

/-- The element checker of the concrete C6 instance: an element fails iff it
is zero (as a `min_size`-style failure would). -/
def elemCheckEx : Int → Option VErr :=
  fun n => if n = 0 then some ⟨"elem", .minSize⟩ else none

/- ## C9: the trailing import block gathered from custom function templates
(generateFuncsImport, lines 969-991) -/
/-- A registered code template: its name and, when it defines an `Import`
sub-template, the text that sub-template renders for the current file
(template execution itself is deterministic for a fixed file). -/
structure FuncTemplate where
  name : String
  importTpl : Option String
deriving DecidableEq, Repr

/-- `strings.TrimSpace`. -/
def trimSpace (s : String) : String :=
  String.mk
    ((s.data.dropWhile Char.isWhitespace).reverse.dropWhile
      Char.isWhitespace).reverse

/-- `strings.ReplaceAll(s, "\n\n", "\n")`, scanning left to right. -/
def collapseNN : List Char → List Char
  | '\n' :: '\n' :: rest => '\n' :: collapseNN rest
  | c :: rest => c :: collapseNN rest
  | [] => []

/-- `filepath.Base` for the slash-separated paths import lines hold. -/
def pathBase (s : String) : String :=
  if s = "" then "."
  else
    match (splitChar '/' s).reverse with
    | [] => "."
    | last :: _ => last

/-- One import line `[path]` becomes a registration of (Go name, import
path): the surrounding brackets are stripped (`impt[1:len(impt)-1]`) and the
Go name is `filepath.Base` of the path. -/
def importLineIdent (impt : String) : String × String :=
  let path := String.mk ((impt.data.drop 1).dropLast)
  (pathBase path, path)

/-- generateFuncsImport: render every used template's `Import` sub-template
into one buffer — the used set is a Go map (`usedFuncs`), so the order the
templates are visited in is whatever `range` yields, modelled by the order of
the input list — then trim, collapse blank lines, split into lines and
register one qualified identifier per line.  The result is the sequence of
registrations handed to the emitted file's import assembly. -/
def generateFuncsImport (usedFuncs : List FuncTemplate) : List (String × String) :=
  let importBuf := String.join (usedFuncs.filterMap (·.importTpl))
  if importBuf.length = 0 then []
  else
    (splitChar '\n' (String.mk (collapseNN (trimSpace importBuf).data))).map
      importLineIdent

/-- Two registered templates whose import paths share the base name `util`. -/
def tplA : FuncTemplate := ⟨"custom_a", some "[github.com/acme/a/util]\n"⟩

def tplB : FuncTemplate := ⟨"custom_b", some "[github.com/acme/b/util]\n"⟩

/- ## The generic field dispatcher (generateFieldValidation, lines 164-193)
and the composite validators it recurses through.  Emitted code is an item
tree; the allocator's generated temporary names (for example `_elem0`) carry
no semantic weight here and are modelled by their prefixes. -/
/-- A field descriptor as generator.go reads it: the kind (for a repeated
field protoreflect reports the element's kind, for a map field the entry's
message kind), the list/map flags, the map entry kinds, and — when the map
value is an enum — that enum's name and parent package for the descriptor
lookups of lines 858-880. -/
structure FieldDesc where
  kind : FieldKind
  isList : Bool := false
  isMap : Bool := false
  mapKeyKind : FieldKind := .int32Kind
  mapValueKind : FieldKind := .int32Kind
  mapValueEnumName : String := ""
  mapValueEnumPkg : String := ""
deriving DecidableEq, Repr

/-- One ValidationContext: the names the emitted code uses, the package of
the context's file (empty when the synthetic context's `File.Proto` is nil),
the field descriptor and the rules to enforce. -/
structure VCtx where
  fieldName : String
  rawFieldName : String
  getNameFunc : String
  pkg : String
  desc : FieldDesc
  rules : List Rule

/-- One item of emitted validation code. -/
inductive EmitItem where
  | nilGuard (fieldName rawFieldName : String)
  | rawLine (line : String)
  | numCheckItem (c : NumCheck)
  | binCheckItem (c : BinCheck)
  | enumConstCheck (rawFieldName goConst : String)
  | enumDefinedOnlyCheck (rawFieldName : String)
  | skipComment (rawFieldName : String)
  | structValidateCall (rawFieldName getName : String)
  | sizeCheck (rawFieldName : String) (key : RuleKey) (src : BinSrc)
  | elemLoop (body : List EmitItem)
  | noSparseLoop (rawFieldName : String)
  | mapKeyLoop (body : List EmitItem)
  | mapValueLoop (body : List EmitItem)

/-- The nil guards of generateFieldValidation's first loop (lines 165-171):
one guard per not_nil rule whose operand is true, emitted before anything
else for the field and regardless of the field's kind. -/
def nilGuards (fieldName rawFieldName : String) (rules : List Rule) :
    List EmitItem :=
  rules.filterMap fun r =>
    if r.key = RuleKey.notNil ∧ r.specified.typedValue.bool then
      some (.nilGuard fieldName rawFieldName)
    else none

def EmitItem.isNilGuard : EmitItem → Bool
  | .nilGuard _ _ => true
  | _ => false

/- ### Enum validation (generateEnumValidation, lines 195-238) -/
/-- One rule of an enum field.  The first switch's default arm reports
"unknown bool annotation" (line 217, as in the source). -/
def generateEnumRule (g : GCtx) (rawName pkg : String) (r : Rule) :
    Except String (List EmitItem) :=
  match r.key with
  | .constKey =>
    (getEnumValue g.files pkg r.specified.typedValue.binary).map fun c =>
      [.enumConstCheck rawName c]
  | .definedOnly =>
    .ok (if r.specified.typedValue.bool then [.enumDefinedOnlyCheck rawName] else [])
  | .notNil => .ok []
  | _ => .error "unknown bool annotation"

/-- generateEnumValidation's rule loop. -/
def generateEnumValidation (g : GCtx) (rawName pkg : String) :
    List Rule → Except String (List EmitItem)
  | [] => .ok []
  | r :: rs =>
    match generateEnumRule g rawName pkg r with
    | .error e => .error e
    | .ok items =>
      match generateEnumValidation g rawName pkg rs with
      | .error e => .error e
      | .ok rest => .ok (items ++ rest)

/- ### Nested message fields (generateStructLikeFieldValidation, 632-653) -/
/-- The rule loop: `skip` with a true operand emits a comment marker and
suppresses the recursive call; an unknown rule kind is an error. -/
def structSkipScan (rawName : String) : List Rule →
    Except String (List EmitItem × Bool)
  | [] => .ok ([], false)
  | r :: rs =>
    match r.key with
    | .skip =>
      (structSkipScan rawName rs).map fun p =>
        if r.specified.typedValue.bool then (.skipComment rawName :: p.1, true)
        else p
    | .notNil => structSkipScan rawName rs
    | _ => .error "unknown struct like annotation"

/-- generateStructLikeFieldValidation: unless skipped, call the nested
message's own Validate and wrap its failure. -/
def generateStructLikeFieldValidation (getName rawName : String)
    (rules : List Rule) : Except String (List EmitItem) :=
  (structSkipScan rawName rules).map fun p =>
    if p.2 then p.1 else p.1 ++ [.structValidateCall rawName getName]

/- ### Base type dispatch (generateBaseTypeValidation, lines 289-305) -/
def generateBaseTypeValidation (g : GCtx) (vc : VCtx) :
    Except String (List EmitItem) :=
  match vc.desc.kind with
  | .boolKind =>
    (generateBoolValidation vc.getNameFunc vc.rawFieldName vc.rules).map
      (List.map .rawLine)
  | k =>
    if k.isIntFamily || k = .floatKind || k = .doubleKind then
      (generateNumericRules g vc.getNameFunc vc.rawFieldName k vc.rules).map
        (List.map .numCheckItem)
    else if k = .stringKind || k = .bytesKind then
      (generateBinaryValidation g vc.getNameFunc vc.rawFieldName k vc.rules).map
        (List.map .binCheckItem)
    else .error "unknown base annotation"

/- ### Map value enum lookups (lines 858-880) -/
/-- getEnumFileDescriptorProto / getEnumEnumDescriptorProto: scan every file
for an enum of the map value's name whose parent file has the matching
package; failure names the field (with the source's spelling). -/
def getEnumFileDescriptorProto (g : GCtx) (fieldDescName enumName enumPkg : String) :
    Except String FileDesc :=
  match g.files.find? (fun f =>
      f.enums.any (fun e => e.name == enumName) && f.pkg == enumPkg) with
  | some f => .ok f
  | none => .error ("can not find enum: " ++ fieldDescName ++ " defination in all file")

/-- The package of the synthetic file context built for a map key/value
(lines 770-787 and 818-835): only when the map value kind is an enum is the
`Proto` descriptor resolved — and its lookup can fail; otherwise the
synthetic `protogen.File` keeps a nil `Proto`, whose `GetPackage()` is the
empty string. -/
def mapInnerPkg (g : GCtx) (vc : VCtx) : Except String String :=
  if vc.desc.mapValueKind = .enumKind then
    (getEnumFileDescriptorProto g vc.rawFieldName vc.desc.mapValueEnumName
      vc.desc.mapValueEnumPkg).map (·.pkg)
  else .ok ""

/-- The source switch of the map no_sparse case (lines 732-739): a boolean
renders via FormatBool, a field reference via its accessor, and any other
operand type leaves the `source` variable untouched.  The emission at lines
754-762 never reads this source: the loop is emitted for any operand. -/
def noSparseOperand (src0 : BinSrc) (v : ValidationValue) : BinSrc :=
  match v.valueType with
  | .boolValue => .lit (formatBool v.typedValue.bool)
  | .fieldReferenceValue => .fieldRef (v.typedValue.getFieldReferenceName "m.")
  | _ => src0

/-- The inner rule list of a rule is structurally smaller, which grounds the
termination of the mutually recursive composite validators. -/
theorem Rule.sizeOf_inner_lt (r : Rule) : sizeOf r.inner < sizeOf r := by
  cases r with
  | mk k s rg i => simp [Rule.inner]

mutual

/-- generateFieldValidation: first the nil guards, then dispatch — list and
map (unless already unwrapped), then message, enum, and the base kinds. -/
def generateFieldValidation (g : GCtx) (vc : VCtx) (isInnerType : Bool) :
    Except String (List EmitItem) :=
  (if vc.desc.isList ∧ isInnerType = false then
    generateListValidation g vc
  else if vc.desc.isMap ∧ isInnerType = false then
    generateMapValidation g vc
  else if vc.desc.kind = .messageKind then
    generateStructLikeFieldValidation vc.getNameFunc vc.rawFieldName vc.rules
  else if vc.desc.kind = .enumKind then
    generateEnumValidation g vc.rawFieldName vc.pkg vc.rules
  else
    generateBaseTypeValidation g vc).map fun items =>
      nilGuards vc.fieldName vc.rawFieldName vc.rules ++ items
termination_by 3 * sizeOf vc.rules + 2

/-- generateListValidation (lines 655-712): `var source` starts empty. -/
def generateListValidation (g : GCtx) (vc : VCtx) :
    Except String (List EmitItem) :=
  genListRules g vc (BinSrc.lit "") vc.rules
termination_by 3 * sizeOf vc.rules + 1

/-- generateListValidation's rule loop: min_size/max_size emit size checks
(reusing the binary size operand switch, which is the same switch), and
`element` emits a loop whose body is the recursively generated validation of
a synthetic context carrying the inner rules; the synthetic context keeps the
field's descriptor and is flagged as already unwrapped. -/
def genListRules (g : GCtx) (vc : VCtx) (src0 : BinSrc) :
    (rules : List Rule) → Except String (List EmitItem)
  | [] => .ok []
  | r :: rs =>
    match r.key with
    | .minSize | .maxSize =>
      (match binSizeOperand g src0 r.specified with
       | .error e => .error e
       | .ok src =>
         match genListRules g vc src rs with
         | .error e => .error e
         | .ok rest => .ok (.sizeCheck vc.rawFieldName r.key src :: rest))
    | .elem =>
      (match generateFieldValidation g
          { vc with
            fieldName := "_elem",
            rawFieldName := "_elem",
            getNameFunc := "_elem",
            rules := r.inner } true with
       | .error e => .error e
       | .ok body =>
         match genListRules g vc src0 rs with
         | .error e => .error e
         | .ok rest => .ok (.elemLoop body :: rest))
    | _ => .error "unknown list annotation"
termination_by rules => 3 * sizeOf rules
decreasing_by
  all_goals simp_wf
  all_goals
    first
    | omega
    | (have h := Rule.sizeOf_inner_lt r
       try simp only [List.cons.sizeOf_spec]
       omega)

/-- generateMapValidation (lines 714-856): `var source` starts empty. -/
def generateMapValidation (g : GCtx) (vc : VCtx) :
    Except String (List EmitItem) :=
  genMapRules g vc (BinSrc.lit "") vc.rules
termination_by 3 * sizeOf vc.rules + 1

/-- generateMapValidation's rule loop: min_size/max_size emit size checks;
no_sparse demands a message-typed value kind and emits the nil-value loop;
map_key/map_value emit loops of the recursively generated validation of
synthetic key/value contexts (with the enum descriptor lookups of lines
781-786 and 810-816 able to fail). -/
def genMapRules (g : GCtx) (vc : VCtx) (src0 : BinSrc) :
    (rules : List Rule) → Except String (List EmitItem)
  | [] => .ok []
  | r :: rs =>
    match r.key with
    | .minSize | .maxSize =>
      (match binSizeOperand g src0 r.specified with
       | .error e => .error e
       | .ok src =>
         match genMapRules g vc src rs with
         | .error e => .error e
         | .ok rest => .ok (.sizeCheck vc.rawFieldName r.key src :: rest))
    | .noSparse =>
      if vc.desc.mapValueKind ≠ .messageKind then
        .error ("field " ++ vc.rawFieldName ++
          ": no_sparse rule is only applicable for embedded message types")
      else
        (match genMapRules g vc (noSparseOperand src0 r.specified) rs with
         | .error e => .error e
         | .ok rest => .ok (.noSparseLoop vc.rawFieldName :: rest))
    | .mapKey =>
      (match mapInnerPkg g vc with
       | .error e => .error e
       | .ok pkg1 =>
         match generateFieldValidation g
             ⟨"k", "k", "k", pkg1, { kind := vc.desc.mapKeyKind }, r.inner⟩
             true with
         | .error e => .error e
         | .ok body =>
           match genMapRules g vc src0 rs with
           | .error e => .error e
           | .ok rest => .ok (.mapKeyLoop body :: rest))
    | .mapValue =>
      (match mapInnerPkg g vc with
       | .error e => .error e
       | .ok pkg1 =>
         match generateFieldValidation g
             ⟨"v", "v", "v", pkg1, { kind := vc.desc.mapValueKind }, r.inner⟩
             true with
         | .error e => .error e
         | .ok body =>
           match genMapRules g vc src0 rs with
           | .error e => .error e
           | .ok rest => .ok (.mapValueLoop body :: rest))
    | _ => .error "unknown map annotation"
termination_by rules => 3 * sizeOf rules
decreasing_by
  all_goals simp_wf
  all_goals
    first
    | omega
    | (have h := Rule.sizeOf_inner_lt r
       try simp only [List.cons.sizeOf_spec]
       omega)

end

/- ## C7: no_sparse -/
/-- The emitted no_sparse loop (lines 758-762): return the failure on the
first nil value.  Map entries are modelled as their values in iteration
order; whether the loop fails is order-independent (it fails exactly when
some stored value is nil). -/
def noSparseScan {α : Type} : List (Option α) → Bool
  | [] => false
  | v :: rest => if v.isNone then true else noSparseScan rest

def mkNoSparseRule (b : Bool) : Rule :=
  .mk .noSparse { valueType := .boolValue, typedValue := { bool := b } } [] []

/-! ## Theorems -/

/- ## Ordering lemmas for the numeric model -/
theorem generateNumericRules_ok_append {g : GCtx} {gn rn : String}
    {k : FieldKind} {xs ys : List Rule} {a b : List NumCheck}
    (hx : generateNumericRules g gn rn k xs = .ok a)
    (hy : generateNumericRules g gn rn k ys = .ok b) :
    generateNumericRules g gn rn k (xs ++ ys) = .ok (a ++ b) := by
  induction xs generalizing a with
  | nil =>
    simp only [generateNumericRules, Except.ok.injEq] at hx
    subst hx
    simpa using hy
  | cons r rs ih =>
    simp only [generateNumericRules, List.cons_append] at hx ⊢
    cases hr : generateNumericRule g gn rn k r with
    | error e => simp [hr] at hx
    | ok c =>
      simp only [hr] at hx ⊢
      cases hrs : generateNumericRules g gn rn k rs with
      | error e => simp [hrs] at hx
      | ok cs =>
        simp only [hrs, Except.ok.injEq] at hx
        subst hx
        simp only [List.append_eq]
        rw [ih hrs]
        simp [List.append_assoc]

theorem generateValidateNum_ok_append {g : GCtx} {xs ys : List NumField}
    {a b : List NumCheck}
    (hx : generateValidateNum g xs = .ok a)
    (hy : generateValidateNum g ys = .ok b) :
    generateValidateNum g (xs ++ ys) = .ok (a ++ b) := by
  induction xs generalizing a with
  | nil =>
    simp only [generateValidateNum, Except.ok.injEq] at hx
    subst hx
    simpa using hy
  | cons f fs ih =>
    simp only [generateValidateNum, List.cons_append] at hx ⊢
    cases hf : generateNumericRules g ("m." ++ f.name) f.name f.kind f.rules with
    | error e => simp [hf] at hx
    | ok cs =>
      simp only [hf] at hx ⊢
      cases hfs : generateValidateNum g fs with
      | error e => simp [hfs] at hx
      | ok rest =>
        simp only [hfs, Except.ok.injEq] at hx
        subst hx
        simp only [List.append_eq]
        rw [ih hfs]
        simp [List.append_assoc]

theorem runNumChecks_append (envI : String → Int) (envF : ToolFunction → Int)
    (xs ys : List NumCheck) :
    runNumChecks envI envF (xs ++ ys) =
      (match runNumChecks envI envF xs with
       | some e => some e
       | none => runNumChecks envI envF ys) := by
  induction xs with
  | nil => simp [runNumChecks]
  | cons c cs ih =>
    simp only [List.cons_append, runNumChecks]
    cases h : checkNumFails envI envF (envI c.getName) c with
    | true => simp [h]
    | false => simp [h, ih]

theorem runNumChecks_none_of_pass {envI : String → Int}
    {envF : ToolFunction → Int} {xs : List NumCheck}
    (h : ∀ c ∈ xs, checkNumFails envI envF (envI c.getName) c = false) :
    runNumChecks envI envF xs = none := by
  induction xs with
  | nil => rfl
  | cons c cs ih =>
    simp only [runNumChecks, h c (List.mem_cons_self c cs)]
    exact ih fun x hx => h x (List.mem_cons_of_mem c hx)

/-- C1: in the validate procedure of a message, the checks of every field's
rules appear in declaration order (fields in field order, each field's rules
in rule order), and when every check generated before some rule `r` passes
while `r`'s check fails, the procedure returns `r`'s error; the rules after
`r` and the fields after its field contribute nothing to the result
(`csR`, `cs2` are arbitrary successfully generated tails). -/
theorem c1_rules_in_declaration_order_first_failure_aborts
    (g : GCtx) (envI : String → Int) (envF : ToolFunction → Int)
    (fs1 fs2 : List NumField) (name : String) (kind : FieldKind)
    (rs1 rs2 : List Rule) (r : Rule)
    (cs1 csA csR cs2 : List NumCheck) (c : NumCheck)
    (h1 : generateValidateNum g fs1 = .ok cs1)
    (h2 : generateNumericRules g ("m." ++ name) name kind rs1 = .ok csA)
    (h3 : generateNumericRule g ("m." ++ name) name kind r = .ok [c])
    (h7 : generateNumericRules g ("m." ++ name) name kind rs2 = .ok csR)
    (h8 : generateValidateNum g fs2 = .ok cs2)
    (h4 : ∀ x ∈ cs1, checkNumFails envI envF (envI x.getName) x = false)
    (h5 : ∀ x ∈ csA, checkNumFails envI envF (envI x.getName) x = false)
    (h6 : checkNumFails envI envF (envI c.getName) c = true) :
    generateValidateNum g (fs1 ++ ⟨name, kind, rs1 ++ r :: rs2⟩ :: fs2) =
        .ok (cs1 ++ (csA ++ c :: csR) ++ cs2) ∧
      runNumChecks envI envF (cs1 ++ (csA ++ c :: csR) ++ cs2) =
        some ⟨c.rawName, c.key⟩ := by
  have h3' : generateNumericRules g ("m." ++ name) name kind [r] = .ok [c] := by
    simp [generateNumericRules, h3]
  have hmid : generateNumericRules g ("m." ++ name) name kind (rs1 ++ r :: rs2) =
      .ok (csA ++ c :: csR) := by
    have := generateNumericRules_ok_append h2
      (generateNumericRules_ok_append h3' h7)
    simpa using this
  have hmidf : generateValidateNum g [⟨name, kind, rs1 ++ r :: rs2⟩] =
      .ok (csA ++ c :: csR) := by
    simp [generateValidateNum, hmid]
  have hgen : generateValidateNum g (fs1 ++ ⟨name, kind, rs1 ++ r :: rs2⟩ :: fs2) =
      .ok (cs1 ++ (csA ++ c :: csR) ++ cs2) := by
    have := generateValidateNum_ok_append h1
      (generateValidateNum_ok_append hmidf h8)
    simpa [List.append_assoc] using this
  refine ⟨hgen, ?_⟩
  rw [runNumChecks_append, runNumChecks_append]
  rw [runNumChecks_none_of_pass h4]
  rw [runNumChecks_append]
  rw [runNumChecks_none_of_pass h5]
  simp [runNumChecks, h6]

theorem c1_witness :
    generateValidateNum {}
        ([⟨"a", .int64Kind, [mkIntRule .greatEqual 0]⟩] ++
          ⟨"b", .int64Kind,
            [mkIntRule .greatEqual 0] ++
              mkIntRule .lessEqual 10 :: [mkIntRule .lessThan 100]⟩ ::
            [⟨"c", .int64Kind, [mkIntRule .constKey 1]⟩]) =
      .ok ([⟨"m.a", "a", .greatEqual, .one (.lit 0)⟩] ++
        ([⟨"m.b", "b", .greatEqual, .one (.lit 0)⟩] ++
          (⟨"m.b", "b", .lessEqual, .one (.lit 10)⟩ : NumCheck) ::
            [⟨"m.b", "b", .lessThan, .one (.lit 100)⟩]) ++
        [⟨"m.c", "c", .constKey, .one (.lit 1)⟩]) ∧
      runNumChecks envI0 envF0
        ([⟨"m.a", "a", .greatEqual, .one (.lit 0)⟩] ++
          ([⟨"m.b", "b", .greatEqual, .one (.lit 0)⟩] ++
            (⟨"m.b", "b", .lessEqual, .one (.lit 10)⟩ : NumCheck) ::
              [⟨"m.b", "b", .lessThan, .one (.lit 100)⟩]) ++
          [⟨"m.c", "c", .constKey, .one (.lit 1)⟩]) =
        some ⟨"b", .lessEqual⟩ :=
  c1_rules_in_declaration_order_first_failure_aborts
    {} envI0 envF0
    [⟨"a", .int64Kind, [mkIntRule .greatEqual 0]⟩]
    [⟨"c", .int64Kind, [mkIntRule .constKey 1]⟩]
    "b" .int64Kind
    [mkIntRule .greatEqual 0] [mkIntRule .lessThan 100] (mkIntRule .lessEqual 10)
    [⟨"m.a", "a", .greatEqual, .one (.lit 0)⟩]
    [⟨"m.b", "b", .greatEqual, .one (.lit 0)⟩]
    [⟨"m.b", "b", .lessThan, .one (.lit 100)⟩]
    [⟨"m.c", "c", .constKey, .one (.lit 1)⟩]
    ⟨"m.b", "b", .lessEqual, .one (.lit 10)⟩
    (by rfl) (by rfl) (by rfl) (by rfl) (by rfl)
    (by decide) (by decide) (by decide)

/- ## C2: complementarity of the in / not_in scans -/
theorem existScan_eq_notInRuleFails {α : Type} [DecidableEq α] (t : α) :
    ∀ l : List α, existScan t l = notInRuleFails t l := by
  intro l
  induction l with
  | nil => rfl
  | cons s rest ih =>
    by_cases h : t = s
    · simp [existScan, notInRuleFails, h]
    · simp [existScan, notInRuleFails, h, ih]

/-- C2: for a fixed slice S and target v, the emitted `in` check fails
exactly when the emitted `not_in` check does not (exactly one of the two
fails), and over the empty slice `in` always fails while `not_in` never
does.  The same two scans give the in/not_in semantics of both the numeric
and the binary check interpreters. -/
theorem c2_in_notin_complementary (v : Int) (S : List Int) :
    inRuleFails v S = !notInRuleFails v S ∧
      inRuleFails v ([] : List Int) = true ∧
      notInRuleFails v ([] : List Int) = false := by
  refine ⟨?_, rfl, rfl⟩
  simp [inRuleFails, existScan_eq_notInRuleFails]

/-- C5: for a string or bytes field carrying `min_size = a` and
`max_size = b` with `a ≤ b`, the generated checks pass exactly when
`a ≤ length ≤ b`, and the boundary lengths `a` and `b` themselves pass. -/
theorem c5_binary_size_bounds (g : GCtx) (getName rawName : String)
    (kind : FieldKind) (a b : Nat) (e : BinEnv)
    (hk : kind = .stringKind ∨ kind = .bytesKind) (hab : a ≤ b) :
    ∃ cs, generateBinaryValidation g getName rawName kind
        [mkIntRule .minSize (a : Int), mkIntRule .maxSize (b : Int)] = .ok cs ∧
      (∀ target : List Char,
        (runBinChecks e target cs = none ↔ a ≤ target.length ∧ target.length ≤ b)) ∧
      (∀ target : List Char, target.length = a → runBinChecks e target cs = none) ∧
      (∀ target : List Char, target.length = b → runBinChecks e target cs = none) := by
  refine ⟨([⟨getName, rawName, kind.str == "string", RuleKey.minSize,
        BinSrc.intLit (a : Int)⟩,
      ⟨getName, rawName, kind.str == "string", RuleKey.maxSize,
        BinSrc.intLit (b : Int)⟩] : List BinCheck),
    rfl, ?_, ?_, ?_⟩
  · intro target
    simp only [runBinChecks, checkBinFails, evalBinInt]
    split_ifs with h1 h2 <;> simp_all <;> omega
  · intro target ht
    simp only [runBinChecks, checkBinFails, evalBinInt]
    split_ifs with h1 h2 <;> simp_all <;> omega
  · intro target ht
    simp only [runBinChecks, checkBinFails, evalBinInt]
    split_ifs with h1 h2 <;> simp_all <;> omega

theorem c5_witness :
    (FieldKind.stringKind = FieldKind.stringKind ∨
        FieldKind.stringKind = FieldKind.bytesKind) ∧ 1 ≤ 3 ∧
      ∃ cs, generateBinaryValidation {} "m.s" "s" .stringKind
          [mkIntRule .minSize (1 : Int), mkIntRule .maxSize (3 : Int)] = .ok cs ∧
        (∀ target : List Char,
          (runBinChecks ⟨fun _ => [], fun _ => 0, fun _ => [], fun _ => 0,
              fun _ _ => true⟩ target cs = none ↔
            1 ≤ target.length ∧ target.length ≤ 3)) ∧
        (∀ target : List Char, target.length = 1 →
          runBinChecks ⟨fun _ => [], fun _ => 0, fun _ => [], fun _ => 0,
            fun _ _ => true⟩ target cs = none) ∧
        (∀ target : List Char, target.length = 3 →
          runBinChecks ⟨fun _ => [], fun _ => 0, fun _ => [], fun _ => 0,
            fun _ _ => true⟩ target cs = none) :=
  ⟨Or.inl rfl, by decide,
    c5_binary_size_bounds {} "m.s" "s" .stringKind 1 3
      ⟨fun _ => [], fun _ => 0, fun _ => [], fun _ => 0, fun _ _ => true⟩
      (Or.inl rfl) (by decide)⟩

/-- C10: for a string or bytes field an `in`/`not_in` rule never aborts
generation — the slice builder's error (empty value list among them) is
discarded — while for a numeric field the same slice builder error is
returned as a generation-time error; an empty value list is exactly such an
error. -/
theorem c10_slice_error_discarded_binary_propagated_numeric
    (g : GCtx) (getName rawName : String) (vals : List ValidationValue) :
    (∀ kind : FieldKind, kind = .stringKind ∨ kind = .bytesKind →
      ∃ cs, generateBinaryValidation g getName rawName kind
        [mkRangeRule .inKey vals] = .ok cs) ∧
    (∀ (kind : FieldKind) (msg : String), kind.isIntFamily = true →
      generateSlice kind vals = .error msg →
      generateNumericRules g getName rawName kind
        [mkRangeRule .inKey vals] = .error msg) ∧
    generateSlice .int64Kind ([] : List ValidationValue) =
      .error "empty validation values" ∧
    generateSlice .stringKind ([] : List ValidationValue) =
      .error "empty validation values" := by
  refine ⟨?_, ?_, rfl, rfl⟩
  · intro kind _
    exact ⟨([⟨getName, rawName, kind.str == "string", RuleKey.inKey,
      BinSrc.sliceSrc (generateSlice kind vals).toOption⟩] : List BinCheck), rfl⟩
  · intro kind msg _ hslice
    simp [generateNumericRules, generateNumericRule, mkRangeRule,
      Rule.key, Rule.range_, hslice, Except.map]

/-- C8 (code bug): a bool field's const rule whose operand is neither a
boolean literal nor a field reference — here an integer literal — does NOT
make generation fail: the operand switch has no default case, so the check is
emitted with an empty source (`if m.F1 !=  \x7b`, which is not valid Go) and
no error is returned; the numeric path in the same situation does return the
generation-time error the claim and spec section 7 describe. -/
theorem c8_bool_unsupported_operand_no_error :
    generateBoolValidation "m.F1" "f1" [mkIntRule .constKey 3] =
      .ok ["if m.F1 !=  \x7b",
        "return fmt.Errorf(\"field f1 const rule failed, current value: %v\", m.F1)",
        "\x7d"] ∧
    generateNumericRules {} "m.F1" "f1" .int64Kind [mkBinRule .constKey "x"] =
      .error "unsupported value type for const in numeric validation" :=
  ⟨rfl, rfl⟩

/- ## C4: enum constant resolution -/
/-- String concatenation concatenates the underlying character lists. -/
theorem data_append (s t : String) : (s ++ t).data = s.data ++ t.data := by
  cases s; cases t; rfl

/-- The substring scan agrees with list infix. -/
theorem infixScan_iff {p l : List Char} : infixScan p l = true ↔ p <:+: l := by
  induction l with
  | nil =>
    cases p with
    | nil => simp [infixScan, List.isEmpty]
    | cons a as => simp [infixScan, List.isEmpty]
  | cons c rest ih =>
    simp [infixScan, List.infix_cons_iff, List.isPrefixOf_iff_prefix, ih]

/-- The substring test on strings agrees with list infix on the data. -/
theorem strContains_iff {s pat : String} :
    strContains s pat = true ↔ pat.data <:+: s.data := by
  simp [strContains, infixScan_iff]

/-- C4 (amended): a two-segment enum const operand is resolved against the
current package and a three-segment operand against the package named by its
first segment; a failed lookup is a generation-time error naming the
unresolved identifier and the package searched; any other segment count is a
generation-time error naming the identifier (but no package — nothing was
searched). -/
theorem c4_enum_resolution_and_errors (files : List FileDesc)
    (curPackage ident : String) :
    (∀ d0 d1, splitChar '.' ident = [d0, d1] →
      getEnumValue files curPackage ident =
        getCurPackageEnumValue files curPackage d0 d1) ∧
    (∀ d0 d1 d2, splitChar '.' ident = [d0, d1, d2] →
      getEnumValue files curPackage ident =
        getDepPackageEnumValue files d0 d1 d2) ∧
    (∀ d0 d1 msg, getCurPackageEnumValue files curPackage d0 d1 = .error msg →
      strContains msg (d0 ++ "." ++ d1) = true ∧
        strContains msg curPackage = true) ∧
    (∀ d0 d1 d2 msg, getDepPackageEnumValue files d0 d1 d2 = .error msg →
      strContains msg (d1 ++ "." ++ d2) = true ∧
        strContains msg d0 = true) ∧
    ((splitChar '.' ident).length ≠ 2 → (splitChar '.' ident).length ≠ 3 →
      getEnumValue files curPackage ident =
          .error ("wrong format for enum rule: " ++ ident) ∧
        strContains ("wrong format for enum rule: " ++ ident) ident = true) := by
  refine ⟨?_, ?_, ?_, ?_, ?_⟩
  · intro d0 d1 hsplit
    simp [getEnumValue, hsplit]
  · intro d0 d1 d2 hsplit
    simp [getEnumValue, hsplit]
  · intro d0 d1 msg herr
    unfold getCurPackageEnumValue at herr
    cases hscan : files.foldr
        (fun f acc =>
          if f.pkg = curPackage then
            match scanEnums d0 d1 f.enums with
            | some g => some g
            | none => acc
          else acc) none with
    | some g => rw [hscan] at herr; cases herr
    | none =>
      rw [hscan] at herr
      have hmsg : msg = "can not find enum value \x27" ++ d0 ++ "." ++ d1 ++
          "\x27 in package \x27" ++ curPackage ++ "\x27" := by
        cases herr; rfl
      subst hmsg
      constructor
      · rw [strContains_iff]
        refine ⟨"can not find enum value \x27".data,
          ("\x27 in package \x27" ++ curPackage ++ "\x27").data, ?_⟩
        simp [data_append, List.append_assoc]
      · rw [strContains_iff]
        refine ⟨("can not find enum value \x27" ++ d0 ++ "." ++ d1 ++
          "\x27 in package \x27").data, "\x27".data, ?_⟩
        simp [data_append, List.append_assoc]
  · intro d0 d1 d2 msg herr
    unfold getDepPackageEnumValue at herr
    cases hscan : files.foldr
        (fun f acc =>
          if f.pkg = d0 then
            match scanEnums d1 d2 f.enums with
            | some g => some (f.goPackageName ++ "." ++ g)
            | none => acc
          else acc) none with
    | some g => rw [hscan] at herr; cases herr
    | none =>
      rw [hscan] at herr
      have hmsg : msg = "can not find enum value \x27" ++ d1 ++ "." ++ d2 ++
          "\x27 in package \x27" ++ d0 ++ "\x27" := by
        cases herr; rfl
      subst hmsg
      constructor
      · rw [strContains_iff]
        refine ⟨"can not find enum value \x27".data,
          ("\x27 in package \x27" ++ d0 ++ "\x27").data, ?_⟩
        simp [data_append, List.append_assoc]
      · rw [strContains_iff]
        refine ⟨("can not find enum value \x27" ++ d1 ++ "." ++ d2 ++
          "\x27 in package \x27").data, "\x27".data, ?_⟩
        simp [data_append, List.append_assoc]
  · intro h2 h3
    have hform : getEnumValue files curPackage ident =
        .error ("wrong format for enum rule: " ++ ident) := by
      unfold getEnumValue
      cases hs : splitChar '.' ident with
      | nil => rfl
      | cons a l1 =>
        cases l1 with
        | nil => rfl
        | cons b l2 =>
          cases l2 with
          | nil => rw [hs] at h2; simp at h2
          | cons c l3 =>
            cases l3 with
            | nil => rw [hs] at h3; simp at h3
            | cons d l4 => rfl
    refine ⟨hform, ?_⟩
    rw [strContains_iff]
    exact ⟨"wrong format for enum rule: ".data, [], by simp [data_append]⟩

/-- C4 counterexample: a four-segment operand is a generation-time error
whose message names the identifier but no package — in particular not the
package that would have been searched (`mypkg`) — refuting the claim that
every such error names the package searched. -/
theorem c4_counterexample :
    getEnumValue filesEx "mypkg" "a.b.c.d" =
        .error "wrong format for enum rule: a.b.c.d" ∧
      strContains "wrong format for enum rule: a.b.c.d" "a.b.c.d" = true ∧
      strContains "wrong format for enum rule: a.b.c.d" "mypkg" = false := by
  exact ⟨rfl, by decide, by decide⟩

theorem c4_witness :
    (getEnumValue filesEx "mypkg" "Color.RED" =
        getCurPackageEnumValue filesEx "mypkg" "Color" "RED") ∧
      (strContains "can not find enum value \x27Color.GREEN\x27 in package \x27mypkg\x27"
          ("Color" ++ "." ++ "GREEN") = true ∧
        strContains "can not find enum value \x27Color.GREEN\x27 in package \x27mypkg\x27"
          "mypkg" = true) :=
  ⟨(c4_enum_resolution_and_errors filesEx "mypkg" "Color.RED").1
      "Color" "RED" (by rfl),
    (c4_enum_resolution_and_errors filesEx "mypkg" "Color.GREEN").2.2.1
      "Color" "GREEN"
      "can not find enum value \x27Color.GREEN\x27 in package \x27mypkg\x27"
      (by rfl)⟩

/-- C6: for a list field with an `element` rule compiled to the element
checker R, the emitted loop fails exactly when some element fails R, and the
error returned is that of the first failing index in iteration order. -/
theorem c6_element_rule_first_failure (α : Type) (R : α → Option VErr)
    (xs : List α) :
    ((runElemLoop R xs).isSome ↔ ∃ x ∈ xs, (R x).isSome) ∧
    (∀ e, runElemLoop R xs = some e →
      ∃ i, ∃ h : i < xs.length, R (xs.get ⟨i, h⟩) = some e ∧
        ∀ j (hj : j < xs.length), j < i → R (xs.get ⟨j, hj⟩) = none) := by
  induction xs with
  | nil =>
    refine ⟨by simp [runElemLoop], fun e he => by simp [runElemLoop] at he⟩
  | cons x xs ih =>
    constructor
    · cases hx : R x with
      | some e => simp [runElemLoop, hx]
      | none =>
        rw [show runElemLoop R (x :: xs) = runElemLoop R xs from by
          simp [runElemLoop, hx]]
        rw [ih.1]
        constructor
        · rintro ⟨y, hy, hys⟩
          exact ⟨y, List.mem_cons_of_mem x hy, hys⟩
        · rintro ⟨y, hy, hys⟩
          rcases List.mem_cons.mp hy with h | h
          · subst h; rw [hx] at hys; simp at hys
          · exact ⟨y, h, hys⟩
    · intro e he
      cases hx : R x with
      | some e' =>
        simp only [runElemLoop, hx] at he
        refine ⟨0, by simp, ?_, fun j hj hlt => absurd hlt (Nat.not_lt_zero j)⟩
        simpa [hx] using he
      | none =>
        simp only [runElemLoop, hx] at he
        obtain ⟨i, h, hi, hprev⟩ := ih.2 e he
        refine ⟨i + 1, by simpa using Nat.succ_lt_succ h, by simpa using hi, ?_⟩
        intro j hj hlt
        cases j with
        | zero => simpa using hx
        | succ k =>
          have hk : k < xs.length := by simpa using hj
          simpa using hprev k hk (Nat.lt_of_succ_lt_succ hlt)

theorem c6_witness :
    ((runElemLoop elemCheckEx [1, 0, 2]).isSome ↔
        ∃ x ∈ [(1 : Int), 0, 2], (elemCheckEx x).isSome) ∧
      (∃ i, ∃ h : i < [(1 : Int), 0, 2].length,
        elemCheckEx ([(1 : Int), 0, 2].get ⟨i, h⟩) = some ⟨"elem", .minSize⟩ ∧
          ∀ j (hj : j < [(1 : Int), 0, 2].length), j < i →
            elemCheckEx ([(1 : Int), 0, 2].get ⟨j, hj⟩) = none) :=
  ⟨(c6_element_rule_first_failure Int elemCheckEx [1, 0, 2]).1,
    (c6_element_rule_first_failure Int elemCheckEx [1, 0, 2]).2
      ⟨"elem", .minSize⟩ (by rfl)⟩

/-- C9 (code bug): the trailing imports are gathered by iterating the
`usedFuncs` Go map with `range`, whose order is unspecified and varies
between runs.  For the same used set `tplA, tplB` the two iteration orders
register the identifiers in different sequences; since both paths share the
base name `util`, the assembled file's package aliasing (assigned in
registration order) and hence the artifact text depend on the order, so two
runs of one fixed input need not be character-for-character identical. -/
theorem c9_import_order_nondeterministic :
    generateFuncsImport [tplA, tplB] =
        [("util", "github.com/acme/a/util"), ("util", "github.com/acme/b/util")] ∧
      generateFuncsImport [tplB, tplA] =
        [("util", "github.com/acme/b/util"), ("util", "github.com/acme/a/util")] ∧
      generateFuncsImport [tplA, tplB] ≠ generateFuncsImport [tplB, tplA] :=
  ⟨by decide, by decide, by decide⟩

/-- C7: a no_sparse rule on a map whose value kind is not message-typed is a
generation-time error; on a message-typed value kind it generates the
nil-value loop, which fails at validation time exactly when some stored value
is nil.  (The rule's operand `b` is irrelevant to both, as in the source.) -/
theorem c7_no_sparse (g : GCtx) (fieldName rawFieldName getNameFunc pkg : String)
    (kKind vKind : FieldKind) (eName ePkg : String) (b : Bool) :
    (vKind ≠ .messageKind →
      generateMapValidation g
          ⟨fieldName, rawFieldName, getNameFunc, pkg,
            ⟨.messageKind, false, true, kKind, vKind, eName, ePkg⟩,
            [mkNoSparseRule b]⟩ =
        .error ("field " ++ rawFieldName ++
          ": no_sparse rule is only applicable for embedded message types")) ∧
    (vKind = .messageKind →
      generateMapValidation g
          ⟨fieldName, rawFieldName, getNameFunc, pkg,
            ⟨.messageKind, false, true, kKind, vKind, eName, ePkg⟩,
            [mkNoSparseRule b]⟩ =
        .ok [.noSparseLoop rawFieldName]) ∧
    (∀ (α : Type) (vals : List (Option α)),
      noSparseScan vals = true ↔ ∃ v ∈ vals, v = none) := by
  refine ⟨?_, ?_, ?_⟩
  · intro h
    simp [generateMapValidation, genMapRules, mkNoSparseRule, Rule.key, h]
  · intro h
    subst h
    simp [generateMapValidation, genMapRules, mkNoSparseRule, Rule.key]
  · intro α vals
    induction vals with
    | nil => simp [noSparseScan]
    | cons v rest ih =>
      cases v with
      | none => simp [noSparseScan]
      | some x => simp [noSparseScan, ih]

theorem c7_witness :
    (generateMapValidation {}
        ⟨"F1", "f1", "m.F1", "pkg",
          ⟨.messageKind, false, true, .int32Kind, .int32Kind, "", ""⟩,
          [mkNoSparseRule true]⟩ =
      .error ("field " ++ "f1" ++
        ": no_sparse rule is only applicable for embedded message types")) ∧
    (generateMapValidation {}
        ⟨"F1", "f1", "m.F1", "pkg",
          ⟨.messageKind, false, true, .int32Kind, .messageKind, "", ""⟩,
          [mkNoSparseRule true]⟩ = .ok [.noSparseLoop "f1"]) ∧
    (noSparseScan [some (1 : Int), none] = true ↔
      ∃ v ∈ [some (1 : Int), none], v = none) :=
  ⟨(c7_no_sparse {} "F1" "f1" "m.F1" "pkg" .int32Kind .int32Kind "" "" true).1
      (by decide),
    (c7_no_sparse {} "F1" "f1" "m.F1" "pkg" .int32Kind .messageKind "" "" true).2.1
      rfl,
    (c7_no_sparse {} "F1" "f1" "m.F1" "pkg" .int32Kind .int32Kind "" "" true).2.2
      Int [some 1, none]⟩

/- ## C3: placement of the not_nil guard -/
/-- `Except.map` hits `.ok` only through `.ok`. -/
theorem exceptMap_ok {ε α β : Type} {x : Except ε α} {f : α → β} {b : β}
    (h : Except.map f x = .ok b) : ∃ a, x = .ok a ∧ b = f a := by
  cases x with
  | error e => simp [Except.map] at h
  | ok a =>
    refine ⟨a, rfl, ?_⟩
    simpa [Except.map] using h.symm

theorem mem_map_not_guard {β : Type} (f : β → EmitItem)
    (hf : ∀ x : β, (f x).isNilGuard = false) (xs : List β) :
    ∀ it ∈ xs.map f, it.isNilGuard = false := by
  intro it h
  obtain ⟨x, _, rfl⟩ := List.mem_map.mp h
  exact hf x

theorem generateBaseTypeValidation_noGuard {g : GCtx} {vc : VCtx}
    {items : List EmitItem} (h : generateBaseTypeValidation g vc = .ok items) :
    ∀ it ∈ items, it.isNilGuard = false := by
  unfold generateBaseTypeValidation at h
  split at h
  · obtain ⟨lines, _, rfl⟩ := exceptMap_ok h
    exact mem_map_not_guard EmitItem.rawLine (fun _ => rfl) lines
  · split at h
    · obtain ⟨cs, _, rfl⟩ := exceptMap_ok h
      exact mem_map_not_guard EmitItem.numCheckItem (fun _ => rfl) cs
    · split at h
      · obtain ⟨cs, _, rfl⟩ := exceptMap_ok h
        exact mem_map_not_guard EmitItem.binCheckItem (fun _ => rfl) cs
      · cases h

theorem generateEnumRule_noGuard {g : GCtx} {rn pkg : String} {r : Rule}
    {items : List EmitItem} (h : generateEnumRule g rn pkg r = .ok items) :
    ∀ it ∈ items, it.isNilGuard = false := by
  unfold generateEnumRule at h
  split at h
  · obtain ⟨c, _, rfl⟩ := exceptMap_ok h
    intro it hit
    simp at hit
    subst hit
    rfl
  · intro it hit
    injection h with h'
    subst h'
    split at hit <;> simp at hit
    subst hit
    rfl
  · injection h with h'
    subst h'
    intro it hit
    simp at hit
  · cases h

theorem generateEnumValidation_noGuard {g : GCtx} {rn pkg : String}
    {rules : List Rule} {items : List EmitItem}
    (h : generateEnumValidation g rn pkg rules = .ok items) :
    ∀ it ∈ items, it.isNilGuard = false := by
  induction rules generalizing items with
  | nil =>
    simp only [generateEnumValidation, Except.ok.injEq] at h
    subst h
    intro it hit
    simp at hit
  | cons r rs ih =>
    simp only [generateEnumValidation] at h
    cases hr : generateEnumRule g rn pkg r with
    | error e => rw [hr] at h; cases h
    | ok first =>
      rw [hr] at h
      cases hrs : generateEnumValidation g rn pkg rs with
      | error e => rw [hrs] at h; cases h
      | ok rest =>
        rw [hrs] at h
        injection h with h'
        subst h'
        intro it hit
        rcases List.mem_append.mp hit with hmem | hmem
        · exact generateEnumRule_noGuard hr it hmem
        · exact ih hrs it hmem

theorem structSkipScan_noGuard {rn : String} {rules : List Rule}
    {p : List EmitItem × Bool} (h : structSkipScan rn rules = .ok p) :
    ∀ it ∈ p.1, it.isNilGuard = false := by
  induction rules generalizing p with
  | nil =>
    simp only [structSkipScan, Except.ok.injEq] at h
    subst h
    intro it hit
    simp at hit
  | cons r rs ih =>
    simp only [structSkipScan] at h
    split at h
    · cases hrs : structSkipScan rn rs with
      | error e => rw [hrs] at h; cases h
      | ok q =>
        rw [hrs] at h
        obtain ⟨q', hq', rfl⟩ := exceptMap_ok (by simpa using h)
        injection hq' with hq'
        subst hq'
        split
        · intro it hit
          rcases List.mem_cons.mp (by simpa using hit) with hmem | hmem
          · subst hmem; rfl
          · exact ih hrs it hmem
        · exact ih hrs
    · exact ih h
    · cases h

theorem generateStructLikeFieldValidation_noGuard {gn rn : String}
    {rules : List Rule} {items : List EmitItem}
    (h : generateStructLikeFieldValidation gn rn rules = .ok items) :
    ∀ it ∈ items, it.isNilGuard = false := by
  unfold generateStructLikeFieldValidation at h
  obtain ⟨p, hp, rfl⟩ := exceptMap_ok h
  have hbase := structSkipScan_noGuard hp
  intro it hit
  split at hit
  · exact hbase it hit
  · rcases List.mem_append.mp hit with hmem | hmem
    · exact hbase it hmem
    · simp at hmem
      subst hmem
      rfl

theorem genListRules_noGuard {g : GCtx} {vc : VCtx} :
    ∀ {rules : List Rule} {src0 : BinSrc} {items : List EmitItem},
      genListRules g vc src0 rules = .ok items →
      ∀ it ∈ items, it.isNilGuard = false := by
  intro rules
  induction rules with
  | nil =>
    intro src0 items h
    simp only [genListRules, Except.ok.injEq] at h
    subst h
    intro it hit
    simp at hit
  | cons r rs ih =>
    intro src0 items h
    rw [genListRules] at h
    split at h
    all_goals repeat' split at h
    all_goals try cases h
    all_goals
      rename_i hrest
      intro it hit
      rcases List.mem_cons.mp hit with hmem | hmem
      · subst hmem
        rfl
      · exact ih hrest it hmem

theorem genMapRules_noGuard {g : GCtx} {vc : VCtx} :
    ∀ {rules : List Rule} {src0 : BinSrc} {items : List EmitItem},
      genMapRules g vc src0 rules = .ok items →
      ∀ it ∈ items, it.isNilGuard = false := by
  intro rules
  induction rules with
  | nil =>
    intro src0 items h
    simp only [genMapRules, Except.ok.injEq] at h
    subst h
    intro it hit
    simp at hit
  | cons r rs ih =>
    intro src0 items h
    rw [genMapRules] at h
    split at h
    all_goals repeat' split at h
    all_goals try cases h
    all_goals
      rename_i hrest
      intro it hit
      rcases List.mem_cons.mp hit with hmem | hmem
      · subst hmem
        rfl
      · exact ih hrest it hmem

/-- C3 (amended): for every field and every dispatch target, the emitted
items are exactly the nil guards of the field's not_nil(true) rules followed
by the dispatch output, which contains no further top-level nil guard; the
guard prefix does not depend on the field's kind, so it is emitted for
non-message fields too. -/
theorem c3_guard_first_regardless_of_kind (g : GCtx) (vc : VCtx)
    (isInnerType : Bool) (items : List EmitItem)
    (h : generateFieldValidation g vc isInnerType = .ok items) :
    ∃ rest, items = nilGuards vc.fieldName vc.rawFieldName vc.rules ++ rest ∧
      ∀ it ∈ rest, it.isNilGuard = false := by
  rw [generateFieldValidation] at h
  obtain ⟨out, hout, rfl⟩ := exceptMap_ok h
  refine ⟨out, rfl, ?_⟩
  split at hout
  · rw [generateListValidation] at hout
    exact genListRules_noGuard hout
  · split at hout
    · rw [generateMapValidation] at hout
      exact genMapRules_noGuard hout
    · split at hout
      · exact generateStructLikeFieldValidation_noGuard hout
      · split at hout
        · exact generateEnumValidation_noGuard hout
        · exact generateBaseTypeValidation_noGuard hout

/-- C3 counterexample: a numeric (int32, not message-typed and hence not
nilable) field carrying `not_nil: true` still gets the nil guard emitted,
first — refuting "this guard is emitted only when the field is nilable
(message-typed)". -/
theorem c3_counterexample :
    generateFieldValidation {}
        ⟨"F1", "f1", "m.F1", "pkg", { kind := .int32Kind }, [mkNotNilRule true]⟩
        false = .ok [.nilGuard "F1" "f1"] ∧
      FieldKind.int32Kind ≠ FieldKind.messageKind := by
  constructor
  · rw [generateFieldValidation]
    simp [generateBaseTypeValidation, generateNumericRules, generateNumericRule,
      nilGuards, mkNotNilRule, Rule.key, Rule.specified, FieldKind.isIntFamily,
      Except.map]
  · decide

theorem c3_witness :
    ∃ rest, ([EmitItem.nilGuard "F1" "f1"] : List EmitItem) =
        nilGuards "F1" "f1" [mkNotNilRule true] ++ rest ∧
      ∀ it ∈ rest, it.isNilGuard = false :=
  c3_guard_first_regardless_of_kind {}
    ⟨"F1", "f1", "m.F1", "pkg", { kind := .int32Kind }, [mkNotNilRule true]⟩
    false [.nilGuard "F1" "f1"]
    (by
      rw [generateFieldValidation]
      simp [generateBaseTypeValidation, generateNumericRules, generateNumericRule,
        nilGuards, mkNotNilRule, Rule.key, Rule.specified, FieldKind.isIntFamily,
        Except.map])
